import Mathlib

/-
  Verification of the go-crud library (itsLeonB/go-crud): a shallow
  embedding of the field-name validator, the query scopes, the GORM
  transactor, and the generic CRUD repository, with theorems settling
  the specification claims about them.
-/

set_option maxHeartbeats 1000000

/- ## Errors

  Go errors built with the eris library. An eris error is either a fresh
  error with a message (eris.New / eris.Errorf) or a wrapping of a cause
  with an additional message (eris.Wrap). The rendered message joins the
  layers with a colon and a space, which is what err.Error() returns. -/

inductive GoError where
  | base (msg : String)
  | wrap (msg : String) (cause : GoError)
deriving DecidableEq

def GoError.message : GoError → String
  | .base m => m
  | .wrap m c => m ++ ": " ++ c.message

/- Plain substring search over character lists, used to state that an
  error message mentions a given phrase. -/

def listPrefixOf : List Char → List Char → Bool
  | [], _ => true
  | _ :: _, [] => false
  | a :: as, b :: bs => a == b && listPrefixOf as bs

def listSubOf (needle : List Char) : List Char → Bool
  | [] => listPrefixOf needle []
  | b :: bs => listPrefixOf needle (b :: bs) || listSubOf needle bs

def mentionsPhrase (needle msg : String) : Bool :=
  listSubOf needle.data msg.data

/- ## Field name validation

  internal/gorm.go defines isValidChar and IsValidFieldName. The named
  source file src/internal/gorm.go only checks emptiness and the allowed
  character set. A second copy of the file (doc-commented, and the one
  the test suite in src/test/internal_test.go and the README rules agree
  with) additionally enforces the dot-separator rules: no leading dot,
  no trailing dot, no consecutive dots. Both versions are embedded. -/

namespace Internal

def isValidChar (char : Char) : Bool :=
  ('a' ≤ char && char ≤ 'z') ||
  ('A' ≤ char && char ≤ 'Z') ||
  ('0' ≤ char && char ≤ '9') ||
  char == '_' ||
  char == '.'

end Internal

/-- Embedding of IsValidFieldName from src/internal/gorm.go: rejects the
  empty string and any character outside the allow-list, nothing more. -/
def IsValidFieldName (field : String) : Bool :=
  if field.length == 0 then false
  else field.data.all Internal.isValidChar

/-- Loop of the strict IsValidFieldName from src/unnamed/part_001,
  carrying the is-first-iteration flag and the previous-char-was-dot flag. -/
def validLoop : List Char → Bool → Bool → Bool
  | [], _, prevDot => !prevDot
  | c :: rest, isFirst, prevDot =>
    if c == '.' then
      if isFirst || prevDot then false
      else validLoop rest false true
    else
      if Internal.isValidChar c then validLoop rest false false
      else false

/-- Embedding of the strict IsValidFieldName from src/unnamed/part_001:
  also rejects leading dots, trailing dots, and consecutive dots. -/
def IsValidFieldNameStrict (field : String) : Bool :=
  if field.length == 0 then false
  else validLoop field.data true false

/- ## Query model

  A query-in-progress as built by the GORM scope functions in
  gorm_scopes.go: accumulated WHERE fragments, ORDER BY fragments,
  limit/offset, and the deferred error state fed by gorm AddError. -/

structure Query where
  whereClauses : List String
  orderClauses : List String
  limitVal : Option Int
  offsetVal : Option Int
  errs : List GoError
deriving DecidableEq

def Query.whereAdd (q : Query) (s : String) : Query :=
  { q with whereClauses := q.whereClauses ++ [s] }

def Query.orderAdd (q : Query) (s : String) : Query :=
  { q with orderClauses := q.orderClauses ++ [s] }

def Query.addError (q : Query) (e : GoError) : Query :=
  { q with errs := q.errs ++ [e] }

def Query.limit (q : Query) (n : Int) : Query :=
  { q with limitVal := some n }

def Query.offset (q : Query) (n : Int) : Query :=
  { q with offsetVal := some n }

/- ## Deleted-visibility policies (internal/gorm_scopes.go and the
  DeletedFilter wrapper in gorm_scopes.go). The zero value of the
  DeletedFilter struct holds a nil interface, embedded as none. -/

inductive DeletedFilterType where
  | excludeDeleted
  | includeDeleted
  | onlyDeleted
deriving DecidableEq

def DeletedFilterType.whereDeletedScope : DeletedFilterType → Query → Query
  | .excludeDeleted, d => d.whereAdd "deleted_at IS NULL"
  | .includeDeleted, d => d
  | .onlyDeleted, d => d.whereAdd "deleted_at IS NOT NULL"

structure DeletedFilter where
  filterType : Option DeletedFilterType
deriving DecidableEq

def DeletedFilter.WhereDeleted (df : DeletedFilter) : Query → Query :=
  fun d =>
    match df.filterType with
    | none => d
    | some t => t.whereDeletedScope d

def ExcludeDeleted : DeletedFilter := ⟨some .excludeDeleted⟩
def IncludeDeleted : DeletedFilter := ⟨some .includeDeleted⟩
def OnlyDeleted : DeletedFilter := ⟨some .onlyDeleted⟩

/- ## Scope functions from gorm_scopes.go. -/

/-- Embedding of Paginate: clamps page below 1 to 1 and applies
  LIMIT limit OFFSET (page-1)*limit. -/
def Paginate (page lim : Int) : Query → Query :=
  fun db =>
    let page1 := if page < 1 then 1 else page
    let off := (page1 - 1) * lim
    (db.limit lim).offset off

/-- Embedding of OrderBy: validates the field name with
  internal.IsValidFieldName, attaches a deferred validation error on
  failure, otherwise appends the ASC or DESC order fragment. -/
def OrderBy (field : String) (ascending : Bool) : Query → Query :=
  fun db =>
    if !IsValidFieldName field then
      db.addError (.base ("invalid field name: " ++ field))
    else
      if ascending then db.orderAdd (field ++ " ASC")
      else db.orderAdd (field ++ " DESC")

/- ## Execution context

  A Go context restricted to the single reserved key lib.ContextKeyGormTx.
  It either carries nothing, a stored *gorm.DB transaction handle
  (identified by an index into the world transaction list), or a value of
  the wrong dynamic type (the failed type-assertion case). -/

inductive CtxVal where
  | txVal (id : Nat)
  | badVal
deriving DecidableEq

abbrev Ctx : Type := Option CtxVal

/-- Embedding of GetTxFromContext from src/internal/transactor.go. -/
def GetTxFromContext : Ctx → Except GoError (Option Nat)
  | none => .ok none
  | some (.txVal id) => .ok (some id)
  | some .badVal => .error (.base "error getting tx from ctx")

/- ## Transaction world

  The state of the underlying database connection as seen through the
  transaction protocol: the status of every transaction ever opened, the
  configured outcomes of the driver operations, driver-level call
  counters, and the log produced via log.Println. -/

inductive TxStatus where
  | active
  | committed
  | rolledBack
deriving DecidableEq

structure TxWorld where
  txs : List TxStatus
  beginFails : Option GoError
  commitFails : Option GoError
  rollbackFails : Option GoError
  beginCalls : Nat
  commitCalls : Nat
  rollbackCalls : Nat
  log : List String
deriving DecidableEq

def logln (w : TxWorld) (s : String) : TxWorld :=
  { w with log := w.log ++ [s] }

/-- Error message of sql.ErrTxDone, compared against by name in
  Rollback. The database/sql package returns it from Commit or Rollback
  on a transaction that has already been committed or rolled back. -/
def benignMsg : String := "sql: transaction has already been committed or rolled back"

/-- Driver-level BEGIN issued by gorm DB.Begin: on success a fresh
  active transaction is appended and its index returned. -/
def dbBegin (w : TxWorld) : TxWorld × Except GoError Nat :=
  match w.beginFails with
  | some e => ({ w with beginCalls := w.beginCalls + 1 }, .error e)
  | none =>
      ({ w with beginCalls := w.beginCalls + 1, txs := w.txs ++ [.active] },
        .ok w.txs.length)

/-- Commit on a transaction handle: an active transaction is finished
  (marked committed, the driver commit may still report an error); a
  finished transaction yields sql.ErrTxDone without reaching the driver. -/
def txCommit (id : Nat) (w : TxWorld) : TxWorld × Option GoError :=
  match w.txs.get? id with
  | some .active =>
      ({ w with commitCalls := w.commitCalls + 1, txs := w.txs.set id .committed },
        w.commitFails)
  | some _ => (w, some (.base benignMsg))
  | none => (w, some (.base benignMsg))

/-- Rollback on a transaction handle, mirroring txCommit. -/
def txRollback (id : Nat) (w : TxWorld) : TxWorld × Option GoError :=
  match w.txs.get? id with
  | some .active =>
      ({ w with rollbackCalls := w.rollbackCalls + 1, txs := w.txs.set id .rolledBack },
        w.rollbackFails)
  | some _ => (w, some (.base benignMsg))
  | none => (w, some (.base benignMsg))

namespace GormTransactor

/-- Embedding of GormTransactor.Begin: opens a transaction, wraps a
  failure with lib.MsgTransactionError, and on success returns the
  derived context carrying the handle. -/
def Begin (ctx : Ctx) (w : TxWorld) : TxWorld × Except GoError Ctx :=
  match dbBegin w with
  | (w1, .error e) => (w1, .error (.wrap "error processing transaction" e))
  | (w1, .ok id) => (w1, .ok (some (.txVal id)))

/-- Embedding of GormTransactor.Commit: a missing handle is a no-op
  success, a commit failure is wrapped with lib.MsgTransactionError. -/
def Commit (ctx : Ctx) (w : TxWorld) : TxWorld × Option GoError :=
  match GetTxFromContext ctx with
  | .error e => (w, some e)
  | .ok none => (w, none)
  | .ok (some id) =>
      match txCommit id w with
      | (w1, some e) => (w1, some (.wrap "error processing transaction" e))
      | (w1, none) => (w1, none)

/-- Embedding of GormTransactor.Rollback: never returns an error. A
  context lookup failure or a missing handle is logged; a rollback
  failure whose message equals sql.ErrTxDone is silently swallowed;
  any other rollback failure is logged. -/
def Rollback (ctx : Ctx) (w : TxWorld) : TxWorld :=
  match GetTxFromContext ctx with
  | .error e => logln w ("rollback error: " ++ e.message)
  | .ok none => logln w "no transaction is running"
  | .ok (some id) =>
      match txRollback id w with
      | (w1, none) => w1
      | (w1, some e) =>
          if e.message = benignMsg then w1
          else logln (logln w1 "error type") ("rollback error: " ++ e.message)

/-- Embedding of GormTransactor.WithinTransaction: reuse an existing
  handle, otherwise begin, run the body, roll back on its failure and
  return the failure unwrapped, or commit and return the commit result;
  the deferred rollback also runs after the commit. -/
def WithinTransaction (ctx : Ctx)
    (serviceFn : Ctx → TxWorld → TxWorld × Option GoError)
    (w : TxWorld) : TxWorld × Option GoError :=
  match GetTxFromContext ctx with
  | .error e => (w, some (.wrap "error checking existing transaction" e))
  | .ok (some _) => serviceFn ctx w
  | .ok none =>
      match Begin ctx w with
      | (w1, .error e) => (w1, some (.wrap "error starting transaction" e))
      | (w1, .ok ctx2) =>
          match serviceFn ctx2 w1 with
          | (w2, some e) => (Rollback ctx2 w2, some e)
          | (w2, none) =>
              match Commit ctx2 w2 with
              | (w3, r) => (Rollback ctx2 w3, r)

end GormTransactor

/- ## Programs of nested transactional calls

  A body handed to WithinTransaction is, for the nesting claims, a
  sequence of plain steps and further WithinTransaction calls along the
  same context chain. -/

inductive Prog where
  | ret (e : Option GoError)
  | seq (p q : Prog)
  | within (p : Prog)

/-- Result a program produces when run with no world interaction: the
  first error of the sequence, if any. -/
def progResult : Prog → Option GoError
  | .ret e => e
  | .seq p q =>
      match progResult p with
      | some e => some e
      | none => progResult q
  | .within p => progResult p

/-- Run a program against a context and a world; within defers to
  GormTransactor.WithinTransaction. -/
def runProg : Prog → Ctx → TxWorld → TxWorld × Option GoError
  | .ret e, _, w => (w, e)
  | .seq p q, ctx, w =>
      match runProg p ctx w with
      | (w1, some e) => (w1, some e)
      | (w1, none) => runProg q ctx w1
  | .within p, ctx, w =>
      GormTransactor.WithinTransaction ctx (fun c w2 => runProg p c w2) w

/- ######################################################################
   ## Claim theorems for the validator and the scopes
   ###################################################################### -/

/-- C1. The claim states that IsValidFieldName accepts exactly the
  non-empty allow-listed strings with strict dot-separator rules, with
  IsValidFieldName(".") = false and IsValidFieldName("a..b") = false.
  The operative code in src/internal/gorm.go returns true on "." and
  "a..b": it contradicts the claim, the repository README rules, the
  doc comment of the strict copy of the function in src/unnamed/part_001,
  and the repository test suite (src/test/internal_test.go expects false
  for ".", ".field", "field.", "table..column"). The strict copy agrees
  with the claim on all these inputs. This theorem evaluates both
  embedded versions at the divergence points. -/
theorem isValidFieldName_dot_code_bug :
    IsValidFieldName "." = true ∧
    IsValidFieldName "a..b" = true ∧
    IsValidFieldName ".field" = true ∧
    IsValidFieldName "field." = true ∧
    IsValidFieldName "" = false ∧
    IsValidFieldName "a.b.c" = true ∧
    IsValidFieldNameStrict "." = false ∧
    IsValidFieldNameStrict "a..b" = false ∧
    IsValidFieldNameStrict ".field" = false ∧
    IsValidFieldNameStrict "field." = false ∧
    IsValidFieldNameStrict "" = false ∧
    IsValidFieldNameStrict "a.b.c" = true := by
  decide

/-- C7. The deleted-visibility policy adds the fragment
  deleted_at IS NULL for Exclude, deleted_at IS NOT NULL for Only,
  leaves the query unchanged for Include, and the zero-value
  DeletedFilter (nil interface) behaves identically to Include. -/
theorem deletedFilter_policies (q : Query) :
    ExcludeDeleted.WhereDeleted q =
      { q with whereClauses := q.whereClauses ++ ["deleted_at IS NULL"] } ∧
    OnlyDeleted.WhereDeleted q =
      { q with whereClauses := q.whereClauses ++ ["deleted_at IS NOT NULL"] } ∧
    IncludeDeleted.WhereDeleted q = q ∧
    DeletedFilter.WhereDeleted ⟨none⟩ q = IncludeDeleted.WhereDeleted q := by
  refine ⟨rfl, rfl, rfl, rfl⟩

/-- C8. When the field-name validator rejects the field, OrderBy attaches
  a validation error to the query error state and adds no ORDER BY
  fragment; when it accepts, OrderBy appends exactly "field ASC" or
  "field DESC" and attaches no error. -/
theorem orderBy_validates (field : String) (q : Query) :
    (IsValidFieldName field = false →
      (∀ ascending, OrderBy field ascending q =
        q.addError (.base ("invalid field name: " ++ field))) ∧
      (∀ ascending, (OrderBy field ascending q).orderClauses = q.orderClauses)) ∧
    (IsValidFieldName field = true →
      OrderBy field true q = q.orderAdd (field ++ " ASC") ∧
      OrderBy field false q = q.orderAdd (field ++ " DESC") ∧
      (∀ ascending, (OrderBy field ascending q).errs = q.errs)) := by
  constructor
  · intro h
    constructor
    · intro ascending
      simp [OrderBy, h]
    · intro ascending
      simp [OrderBy, h, Query.addError]
  · intro h
    refine ⟨by simp [OrderBy, h, Query.orderAdd], by simp [OrderBy, h, Query.orderAdd], ?_⟩
    intro ascending
    cases ascending <;> simp [OrderBy, h, Query.orderAdd]

/-- C8 witness: OrderBy on the rejected field "bad name" attaches the
  validation error and adds no order fragment; on the accepted field
  "name" it appends "name ASC". -/
theorem orderBy_validates_witness :
    (OrderBy "bad name" true ⟨[], [], none, none, []⟩ =
      Query.addError ⟨[], [], none, none, []⟩ (.base "invalid field name: bad name")) ∧
    (OrderBy "name" true ⟨[], [], none, none, []⟩ =
      Query.orderAdd ⟨[], [], none, none, []⟩ "name ASC") := by
  exact ⟨((orderBy_validates "bad name" ⟨[], [], none, none, []⟩).1 (by decide)).1 true,
    ((orderBy_validates "name" ⟨[], [], none, none, []⟩).2 (by decide)).1⟩

/-- C9. Paginate clamps every page below 1 to page 1 (offset 0), and for
  page at least 1 sets LIMIT lim and OFFSET (page-1)*lim. -/
theorem paginate_clamps (page lim : Int) (q : Query) :
    (page < 1 → Paginate page lim q = Paginate 1 lim q) ∧
    (1 ≤ page → Paginate page lim q =
      { q with limitVal := some lim, offsetVal := some ((page - 1) * lim) }) := by
  constructor
  · intro h
    simp [Paginate, h, Query.limit, Query.offset]
  · intro h
    have h2 : ¬ page < 1 := not_lt.mpr h
    simp [Paginate, h2, Query.limit, Query.offset]

/-- C9 witness: Paginate at page 0 and page -1 equals Paginate at page 1,
  and Paginate at page 3 with limit 2 sets offset 4. -/
theorem paginate_clamps_witness :
    Paginate 0 2 ⟨[], [], none, none, []⟩ = Paginate 1 2 ⟨[], [], none, none, []⟩ ∧
    Paginate (-1) 2 ⟨[], [], none, none, []⟩ = Paginate 1 2 ⟨[], [], none, none, []⟩ ∧
    Paginate 3 2 ⟨[], [], none, none, []⟩ =
      { whereClauses := [], orderClauses := [], limitVal := some 2,
        offsetVal := some 4, errs := [] } := by
  refine ⟨(paginate_clamps 0 2 _).1 (by decide),
    (paginate_clamps (-1) 2 _).1 (by decide), ?_⟩
  have h := (paginate_clamps 3 2 ⟨[], [], none, none, []⟩).2 (by decide)
  simpa using h

/- ## List helper lemmas used by the transactor proofs. -/

theorem getq_append_singleton {α : Type} (l : List α) (a : α) :
    (l ++ [a]).get? l.length = some a := by
  induction l with
  | nil => rfl
  | cons b bs ih =>
      simp only [List.cons_append, List.length_cons, List.get?]
      exact ih

theorem set_append_singleton {α : Type} (l : List α) (a x : α) :
    (l ++ [a]).set l.length x = l ++ [x] := by
  induction l with
  | nil => rfl
  | cons b bs ih =>
      show b :: (bs ++ [a]).set bs.length x = b :: (bs ++ [x])
      rw [ih]

theorem getq_lt_length {α : Type} : ∀ (l : List α) (i : Nat) (a : α),
    l.get? i = some a → i < l.length := by
  intro l
  induction l with
  | nil =>
      intro i a h
      exact absurd h (by simp)
  | cons b bs ih =>
      intro i a h
      cases i with
      | zero => simp
      | succ n =>
          have h2 := ih n a (by simpa using h)
          simpa using Nat.succ_lt_succ h2

theorem getq_set_self {α : Type} : ∀ (l : List α) (i : Nat) (x : α),
    i < l.length → (l.set i x).get? i = some x := by
  intro l
  induction l with
  | nil =>
      intro i x h
      exact absurd h (by simp)
  | cons b bs ih =>
      intro i x h
      cases i with
      | zero => rfl
      | succ n =>
          simp only [List.set, List.get?]
          exact ih n x (by simpa using h)

/-- Running a program on a context that already carries a transaction
  handle never touches the world: every nested WithinTransaction call
  takes the reuse path, and plain steps only produce a result. -/
theorem runProg_inTx (p : Prog) : ∀ (i : Nat) (w : TxWorld),
    runProg p (some (CtxVal.txVal i)) w = (w, progResult p) := by
  induction p with
  | ret e =>
      intro i w
      rfl
  | seq p q ihp ihq =>
      intro i w
      cases hr : progResult p with
      | some e =>
          simp [runProg, ihp i w, progResult, hr]
      | none =>
          simp [runProg, ihp i w, progResult, hr, ihq i w]
  | within p ihp =>
      intro i w
      simp [runProg, GormTransactor.WithinTransaction, GetTxFromContext, ihp i w, progResult]

/- Concrete worlds used by the witnesses. -/

def emptyTxWorld : TxWorld := ⟨[], none, none, none, 0, 0, 0, []⟩

def oneActiveTxWorld : TxWorld := ⟨[TxStatus.active], none, none, none, 1, 0, 0, []⟩

/-- Rollback never decreases or increases any driver counter except the
  rollback counter, which it bumps at most once. -/
theorem rollback_counter_bound (ctx : Ctx) (w : TxWorld) :
    (GormTransactor.Rollback ctx w).beginCalls = w.beginCalls ∧
    (GormTransactor.Rollback ctx w).commitCalls = w.commitCalls ∧
    (GormTransactor.Rollback ctx w).rollbackCalls ≤ w.rollbackCalls + 1 := by
  unfold GormTransactor.Rollback
  cases ctx with
  | none => simp [GetTxFromContext, logln]
  | some v =>
      cases v with
      | badVal => simp [GetTxFromContext, logln]
      | txVal i =>
          simp only [GetTxFromContext]
          unfold txRollback
          cases hg : w.txs.get? i with
          | none => simp [GoError.message, logln]
          | some s =>
              cases s with
              | active =>
                  cases hrf : w.rollbackFails with
                  | none => simp
                  | some e =>
                      by_cases hm : e.message = benignMsg
                      · simp [hm, logln]
                      · simp [hm, logln]
              | committed => simp [GoError.message, logln]
              | rolledBack => simp [GoError.message, logln]

/-- Rollback on a transaction that is no longer active is a silent
  no-op: the driver is not called, nothing is logged, the world is
  returned unchanged (the swallowed sql.ErrTxDone case). -/
theorem rollback_finished_noop (w : TxWorld) (i : Nat) (s : TxStatus)
    (hs : w.txs.get? i = some s) (hne : s ≠ TxStatus.active) :
    GormTransactor.Rollback (some (CtxVal.txVal i)) w = w := by
  unfold GormTransactor.Rollback
  simp only [GetTxFromContext]
  unfold txRollback
  rw [hs]
  cases s with
  | active => exact absurd rfl hne
  | committed => simp [GoError.message]
  | rolledBack => simp [GoError.message]

/-- C2. Transparent nesting of WithinTransaction: on a context that
  already carries a transaction handle the call is literally the body
  applied to the same context and world (its result is returned verbatim
  and no Begin, Commit, or Rollback runs); and for every program of
  nested WithinTransaction calls started on a handle-free context,
  exactly one driver-level Begin occurs and at most one driver-level
  Commit or effective Rollback occurs. The context carries at most one
  handle under the reserved key by construction of Ctx. -/
theorem withinTransaction_nesting :
    (∀ (fn : Ctx → TxWorld → TxWorld × Option GoError) (w : TxWorld) (i : Nat),
      GormTransactor.WithinTransaction (some (CtxVal.txVal i)) fn w =
        fn (some (CtxVal.txVal i)) w) ∧
    (∀ (p : Prog) (w : TxWorld),
      (runProg (.within p) none w).1.beginCalls = w.beginCalls + 1 ∧
      (runProg (.within p) none w).1.commitCalls + (runProg (.within p) none w).1.rollbackCalls ≤
        w.commitCalls + w.rollbackCalls + 1) := by
  constructor
  · intro fn w i
    rfl
  · intro p w
    cases hbf : w.beginFails with
    | some e =>
        have hb : GormTransactor.Begin none w =
            ({ w with beginCalls := w.beginCalls + 1 },
              .error (.wrap "error processing transaction" e)) := by
          simp [GormTransactor.Begin, dbBegin, hbf]
        have hfinal : runProg (.within p) none w =
            ({ w with beginCalls := w.beginCalls + 1 },
              some (.wrap "error starting transaction"
                (.wrap "error processing transaction" e))) := by
          simp only [runProg, GormTransactor.WithinTransaction, GetTxFromContext, hb]
        rw [hfinal]
        simp
    | none =>
        have hb : GormTransactor.Begin none w =
            ({ w with beginCalls := w.beginCalls + 1, txs := w.txs ++ [TxStatus.active] },
              .ok (some (CtxVal.txVal w.txs.length))) := by
          simp [GormTransactor.Begin, dbBegin, hbf]
        have hfn : runProg p (some (CtxVal.txVal w.txs.length))
            { w with beginCalls := w.beginCalls + 1, txs := w.txs ++ [TxStatus.active] } =
            ({ w with beginCalls := w.beginCalls + 1, txs := w.txs ++ [TxStatus.active] },
              progResult p) :=
          runProg_inTx p _ _
        cases hr : progResult p with
        | some e =>
            rw [hr] at hfn
            have hfinal : runProg (.within p) none w =
                (GormTransactor.Rollback (some (CtxVal.txVal w.txs.length))
                  { w with beginCalls := w.beginCalls + 1, txs := w.txs ++ [TxStatus.active] },
                  some e) := by
              simp only [runProg, GormTransactor.WithinTransaction, GetTxFromContext, hb, hfn]
            rw [hfinal]
            obtain ⟨hA, hB, hC⟩ := rollback_counter_bound (some (CtxVal.txVal w.txs.length))
              { w with beginCalls := w.beginCalls + 1, txs := w.txs ++ [TxStatus.active] }
            dsimp only at hA hB hC ⊢
            exact ⟨hA, by omega⟩
        | none =>
            rw [hr] at hfn
            have hc : GormTransactor.Commit (some (CtxVal.txVal w.txs.length))
                { w with beginCalls := w.beginCalls + 1, txs := w.txs ++ [TxStatus.active] } =
                ({ w with
                    beginCalls := w.beginCalls + 1, commitCalls := w.commitCalls + 1,
                    txs := w.txs ++ [TxStatus.committed] },
                  (match w.commitFails with
                    | some e2 => some (.wrap "error processing transaction" e2)
                    | none => none)) := by
              cases hcf : w.commitFails with
              | none =>
                  simp [GormTransactor.Commit, GetTxFromContext, txCommit,
                    getq_append_singleton, set_append_singleton, hcf]
              | some e2 =>
                  simp [GormTransactor.Commit, GetTxFromContext, txCommit,
                    getq_append_singleton, set_append_singleton, hcf]
            have hrb : GormTransactor.Rollback (some (CtxVal.txVal w.txs.length))
                { w with
                  beginCalls := w.beginCalls + 1, commitCalls := w.commitCalls + 1,
                  txs := w.txs ++ [TxStatus.committed] } =
                { w with
                  beginCalls := w.beginCalls + 1, commitCalls := w.commitCalls + 1,
                  txs := w.txs ++ [TxStatus.committed] } := by
              apply rollback_finished_noop _ w.txs.length TxStatus.committed
              · exact getq_append_singleton w.txs TxStatus.committed
              · intro hcon
                exact absurd hcon (by decide)
            have hfinal : runProg (.within p) none w =
                ({ w with
                    beginCalls := w.beginCalls + 1, commitCalls := w.commitCalls + 1,
                    txs := w.txs ++ [TxStatus.committed] },
                  (match w.commitFails with
                    | some e2 => some (.wrap "error processing transaction" e2)
                    | none => none)) := by
              simp only [runProg, GormTransactor.WithinTransaction, GetTxFromContext,
                hb, hfn, hc, hrb]
            rw [hfinal]
            refine ⟨rfl, ?_⟩
            dsimp only
            omega

/-- C2 witness: on a context carrying handle 0, WithinTransaction is the
  body applied verbatim, and a single nested call on a fresh world
  performs exactly one driver Begin and one driver Commit. -/
theorem withinTransaction_nesting_witness :
    GormTransactor.WithinTransaction (some (CtxVal.txVal 0))
        (fun c w => (w, none)) oneActiveTxWorld =
      (oneActiveTxWorld, none) ∧
    (runProg (.within (.ret none)) none emptyTxWorld).1.beginCalls =
      emptyTxWorld.beginCalls + 1 ∧
    (runProg (.within (.ret none)) none emptyTxWorld).1.commitCalls +
        (runProg (.within (.ret none)) none emptyTxWorld).1.rollbackCalls ≤
      emptyTxWorld.commitCalls + emptyTxWorld.rollbackCalls + 1 :=
  ⟨withinTransaction_nesting.1 (fun c w => (w, none)) oneActiveTxWorld 0,
    (withinTransaction_nesting.2 (.ret none) emptyTxWorld).1,
    (withinTransaction_nesting.2 (.ret none) emptyTxWorld).2⟩

/-- C3. Starting from a context with no transaction handle and a world
  where Begin succeeds: when the body fails with error e, the call
  returns exactly e, unwrapped, after running Rollback on the freshly
  begun transaction; when the body succeeds, the call returns exactly
  the result of Commit on the fresh transaction, with the deferred
  Rollback running afterwards on the committed world; a Rollback that
  finds its transaction active rolls it back and, when the driver
  rollback succeeds, logs nothing; Commit on an active transaction marks
  it committed; and Rollback on a committed transaction is an exact
  no-op (the benign already-finished case). -/
theorem withinTransaction_no_existing_tx
    (w : TxWorld) (fn : Ctx → TxWorld → TxWorld × Option GoError)
    (w1 : TxWorld) (ctx2 : Ctx)
    (hb : GormTransactor.Begin none w = (w1, .ok ctx2)) :
    (∀ w2 e, fn ctx2 w1 = (w2, some e) →
      GormTransactor.WithinTransaction none fn w =
        (GormTransactor.Rollback ctx2 w2, some e)) ∧
    (∀ w2, fn ctx2 w1 = (w2, none) →
      GormTransactor.WithinTransaction none fn w =
        (GormTransactor.Rollback ctx2 (GormTransactor.Commit ctx2 w2).1,
          (GormTransactor.Commit ctx2 w2).2)) ∧
    (∀ i w2, ctx2 = some (CtxVal.txVal i) → w2.txs.get? i = some TxStatus.active →
      w2.rollbackFails = none →
      (GormTransactor.Rollback ctx2 w2).txs.get? i = some TxStatus.rolledBack ∧
      (GormTransactor.Rollback ctx2 w2).log = w2.log) ∧
    (∀ i w2, ctx2 = some (CtxVal.txVal i) → w2.txs.get? i = some TxStatus.active →
      (GormTransactor.Commit ctx2 w2).1.txs.get? i = some TxStatus.committed) ∧
    (∀ i w3, w3.txs.get? i = some TxStatus.committed →
      GormTransactor.Rollback (some (CtxVal.txVal i)) w3 = w3) := by
  refine ⟨?_, ?_, ?_, ?_, ?_⟩
  · intro w2 e hfn
    simp only [GormTransactor.WithinTransaction, GetTxFromContext, hb, hfn]
  · intro w2 hfn
    rcases hcp : GormTransactor.Commit ctx2 w2 with ⟨w3, r⟩
    simp only [GormTransactor.WithinTransaction, GetTxFromContext, hb, hfn, hcp]
  · intro i w2 hctx hact hrf
    subst hctx
    have hlt := getq_lt_length w2.txs i TxStatus.active hact
    unfold GormTransactor.Rollback
    simp only [GetTxFromContext]
    unfold txRollback
    rw [hact, hrf]
    dsimp only
    exact ⟨getq_set_self w2.txs i TxStatus.rolledBack hlt, rfl⟩
  · intro i w2 hctx hact
    subst hctx
    have hlt := getq_lt_length w2.txs i TxStatus.active hact
    unfold GormTransactor.Commit
    simp only [GetTxFromContext]
    unfold txCommit
    rw [hact]
    cases hcf : w2.commitFails with
    | none =>
        dsimp only
        exact getq_set_self w2.txs i TxStatus.committed hlt
    | some e2 =>
        dsimp only
        exact getq_set_self w2.txs i TxStatus.committed hlt
  · intro i w3 hcom
    exact rollback_finished_noop w3 i TxStatus.committed hcom (by decide)

/-- C3 witness: with an empty world and a body that fails with the error
  boom, WithinTransaction returns exactly boom and applies Rollback to
  the freshly begun transaction. -/
theorem withinTransaction_no_existing_tx_witness :
    GormTransactor.WithinTransaction none
        (fun c w => (w, some (GoError.base "boom"))) emptyTxWorld =
      (GormTransactor.Rollback (some (CtxVal.txVal 0)) oneActiveTxWorld,
        some (GoError.base "boom")) :=
  (withinTransaction_no_existing_tx emptyTxWorld
      (fun c w => (w, some (GoError.base "boom")))
      oneActiveTxWorld (some (CtxVal.txVal 0)) rfl).1
    oneActiveTxWorld (GoError.base "boom") rfl

/-- C4. Commit on a context holding no transaction handle returns nil
  without touching the world; Rollback, whose return type carries no
  error on any path, logs and returns when no handle is present, is an
  exact silent no-op when the rollback failure is the benign
  already-finished case, rolls back and stays silent on driver success,
  and logs without propagating when the driver rollback fails with any
  other error. -/
theorem commit_rollback_no_handle :
    (∀ w : TxWorld, GormTransactor.Commit none w = (w, none)) ∧
    (∀ w : TxWorld, GormTransactor.Rollback none w =
      logln w "no transaction is running") ∧
    (∀ (w : TxWorld) (i : Nat) (s : TxStatus), w.txs.get? i = some s →
      s ≠ TxStatus.active →
      GormTransactor.Rollback (some (CtxVal.txVal i)) w = w) ∧
    (∀ (w : TxWorld) (i : Nat), w.txs.get? i = some TxStatus.active →
      w.rollbackFails = none →
      GormTransactor.Rollback (some (CtxVal.txVal i)) w =
        { w with
          rollbackCalls := w.rollbackCalls + 1,
          txs := w.txs.set i TxStatus.rolledBack }) ∧
    (∀ (w : TxWorld) (i : Nat) (e : GoError), w.txs.get? i = some TxStatus.active →
      w.rollbackFails = some e → ¬ e.message = benignMsg →
      GormTransactor.Rollback (some (CtxVal.txVal i)) w =
        logln (logln { w with
            rollbackCalls := w.rollbackCalls + 1,
            txs := w.txs.set i TxStatus.rolledBack } "error type")
          ("rollback error: " ++ e.message)) := by
  refine ⟨?_, ?_, ?_, ?_, ?_⟩
  · intro w
    rfl
  · intro w
    rfl
  · intro w i s hs hne
    exact rollback_finished_noop w i s hs hne
  · intro w i hact hrf
    unfold GormTransactor.Rollback
    simp only [GetTxFromContext]
    unfold txRollback
    rw [hact, hrf]
  · intro w i e hact hrf hm
    unfold GormTransactor.Rollback
    simp only [GetTxFromContext]
    unfold txRollback
    rw [hact, hrf]
    simp [hm]

/-- C4 witness: Commit with no handle on the empty world is a nil no-op,
  Rollback with no handle only logs, and Rollback on an already
  committed transaction is an exact silent no-op. -/
theorem commit_rollback_no_handle_witness :
    GormTransactor.Commit none emptyTxWorld = (emptyTxWorld, none) ∧
    GormTransactor.Rollback none emptyTxWorld =
      logln emptyTxWorld "no transaction is running" ∧
    GormTransactor.Rollback (some (CtxVal.txVal 0))
        ⟨[TxStatus.committed], none, none, none, 1, 1, 0, []⟩ =
      ⟨[TxStatus.committed], none, none, none, 1, 1, 0, []⟩ :=
  ⟨commit_rollback_no_handle.1 emptyTxWorld,
    commit_rollback_no_handle.2.1 emptyTxWorld,
    commit_rollback_no_handle.2.2.1
      ⟨[TxStatus.committed], none, none, none, 1, 1, 0, []⟩ 0
      TxStatus.committed rfl (by decide)⟩

/- ## Repository model (gorm_repository.go)

  The repository world holds the abstract state of the underlying
  database as the generic repository sees it: a counter of executed
  database operations, the configured outcome of each kind of engine
  call, the stored rows, and the configured query failure. -/

structure RepoWorld (T : Type) where
  dbCalls : Nat
  createErr : Option GoError
  saveErr : Option GoError
  deleteErr : Option GoError
  rows : List T
  queryErr : Option GoError

/-- Embedding of the Specification struct from gorm_repository.go. -/
structure Specification (T : Type) where
  Model : T
  PreloadRelations : List String
  ForUpdate : Bool
  DeletedFilter : DeletedFilter

/-- Embedding of GetGormInstance: the transaction handle from the
  context when present, the base connection otherwise, the context
  lookup failure passed through. -/
def GetGormInstance (ctx : Ctx) : Except GoError (Option Nat) :=
  match GetTxFromContext ctx with
  | .error e => .error e
  | .ok (some id) => .ok (some id)
  | .ok none => .ok none

/-- Message of gorm.ErrRecordNotFound, which FindFirst compares the
  query error against. -/
def errRecordNotFound : GoError := .base "record not found"

/-- Row visibility of a deleted filter: how the WHERE fragment added by
  DeletedFilter.WhereDeleted restricts rows, with isDeleted abstracting
  the deleted_at IS NOT NULL test. -/
def deletedPred {T : Type} (df : DeletedFilter) (isDeleted : T → Bool) (t : T) : Bool :=
  match df.filterType with
  | none => true
  | some .includeDeleted => true
  | some .excludeDeleted => !isDeleted t
  | some .onlyDeleted => isDeleted t

namespace gormRepository

variable {T : Type}

/-- Embedding of gormRepository.checkZeroValue: reflect.DeepEqual
  against the zero value of T, abstracted as equality with zeroT. -/
def checkZeroValue [DecidableEq T] (zeroT model : T) : Option GoError :=
  if model = zeroT then some (.base "model cannot be zero value") else none

/-- Embedding of gormRepository.Insert. -/
def Insert [DecidableEq T] (zeroT : T) (ctx : Ctx) (model : T) (w : RepoWorld T) :
    RepoWorld T × (T × Option GoError) :=
  match checkZeroValue zeroT model with
  | some e => (w, (zeroT, some e))
  | none =>
      match GetGormInstance ctx with
      | .error e => (w, (zeroT, some e))
      | .ok _ =>
          let w1 := { w with dbCalls := w.dbCalls + 1 }
          match w.createErr with
          | some e => (w1, (zeroT, some (.wrap "error inserting data" e)))
          | none => (w1, (model, none))

/-- Embedding of gormRepository.Update. -/
def Update [DecidableEq T] (zeroT : T) (ctx : Ctx) (model : T) (w : RepoWorld T) :
    RepoWorld T × (T × Option GoError) :=
  match checkZeroValue zeroT model with
  | some e => (w, (zeroT, some e))
  | none =>
      match GetGormInstance ctx with
      | .error e => (w, (zeroT, some e))
      | .ok _ =>
          let w1 := { w with dbCalls := w.dbCalls + 1 }
          match w.saveErr with
          | some e => (w1, (zeroT, some (.wrap "error updating data" e)))
          | none => (w1, (model, none))

/-- Embedding of gormRepository.Delete. -/
def Delete [DecidableEq T] (zeroT : T) (ctx : Ctx) (model : T) (w : RepoWorld T) :
    RepoWorld T × Option GoError :=
  match checkZeroValue zeroT model with
  | some e => (w, some e)
  | none =>
      match GetGormInstance ctx with
      | .error e => (w, some e)
      | .ok _ =>
          let w1 := { w with dbCalls := w.dbCalls + 1 }
          match w.deleteErr with
          | some e => (w1, some (.wrap "error deleting data" e))
          | none => (w1, none)

/-- Embedding of gormRepository.InsertMany. -/
def InsertMany (ctx : Ctx) (models : List T) (w : RepoWorld T) :
    RepoWorld T × (List T × Option GoError) :=
  if models.length < 1 then
    (w, ([], some (.base "inserted models cannot be empty")))
  else
    match GetGormInstance ctx with
    | .error e => (w, ([], some e))
    | .ok _ =>
        let w1 := { w with dbCalls := w.dbCalls + 1 }
        match w.createErr with
        | some e => (w1, ([], some (.wrap "error batch inserting data" e)))
        | none => (w1, (models, none))

/-- Embedding of gormRepository.DeleteMany. -/
def DeleteMany (ctx : Ctx) (models : List T) (w : RepoWorld T) :
    RepoWorld T × Option GoError :=
  if models.length < 1 then
    (w, some (.base "deleted models cannot be empty"))
  else
    match GetGormInstance ctx with
    | .error e => (w, some e)
    | .ok _ =>
        let w1 := { w with dbCalls := w.dbCalls + 1 }
        match w.deleteErr with
        | some e => (w1, some (.wrap "error batch deleting data" e))
        | none => (w1, none)

/-- Embedding of gormRepository.SaveMany (its emptiness message and its
  wrap message are the insert ones, as in the source). -/
def SaveMany (ctx : Ctx) (models : List T) (w : RepoWorld T) :
    RepoWorld T × (List T × Option GoError) :=
  if models.length < 1 then
    (w, ([], some (.base "inserted models cannot be empty")))
  else
    match GetGormInstance ctx with
    | .error e => (w, ([], some e))
    | .ok _ =>
        let w1 := { w with dbCalls := w.dbCalls + 1 }
        match w.saveErr with
        | some e => (w1, ([], some (.wrap "error batch inserting data" e)))
        | none => (w1, (models, none))

/-- Execution of First on the scoped query: a configured query failure
  is returned; otherwise the first stored row passing the combined
  filter, or gorm.ErrRecordNotFound when none does. -/
def dbFirst (w : RepoWorld T) (pred : T → Bool) : Except GoError T :=
  match w.queryErr with
  | some e => .error e
  | none =>
      match (w.rows.filter pred).head? with
      | some t => .ok t
      | none => .error errRecordNotFound

/-- Embedding of gormRepository.FindFirst: scopes applied, First
  executed, gorm.ErrRecordNotFound mapped to a zero-value success, any
  other failure wrapped. -/
def FindFirst (zeroT : T) (specMatches : T → T → Bool) (isDeleted : T → Bool)
    (ctx : Ctx) (spec : Specification T) (w : RepoWorld T) : T × Option GoError :=
  match GetGormInstance ctx with
  | .error e => (zeroT, some e)
  | .ok _ =>
      match dbFirst w
          (fun t => specMatches spec.Model t &&
            deletedPred spec.DeletedFilter isDeleted t) with
      | .ok t => (t, none)
      | .error e =>
          if e = errRecordNotFound then (zeroT, none)
          else (zeroT, some (.wrap "error querying data" e))

end gormRepository

def emptyRepoWorld : RepoWorld Nat := ⟨0, none, none, none, [], none⟩

/-- C5. For every entity type T, Insert, Update and Delete on the zero
  value of T return the ValidationError whose message mentions the
  phrase zero value, and InsertMany, DeleteMany and SaveMany on an empty
  slice return the ValidationError whose message mentions the phrase
  empty; in every case the world comes back unchanged, so no database
  call was performed. -/
theorem repository_zero_value_empty_validation
    (T : Type) [DecidableEq T] (zeroT : T) (ctx : Ctx) (w : RepoWorld T) :
    gormRepository.Insert zeroT ctx zeroT w =
      (w, (zeroT, some (GoError.base "model cannot be zero value"))) ∧
    gormRepository.Update zeroT ctx zeroT w =
      (w, (zeroT, some (GoError.base "model cannot be zero value"))) ∧
    gormRepository.Delete zeroT ctx zeroT w =
      (w, some (GoError.base "model cannot be zero value")) ∧
    gormRepository.InsertMany ctx ([] : List T) w =
      (w, ([], some (GoError.base "inserted models cannot be empty"))) ∧
    gormRepository.DeleteMany ctx ([] : List T) w =
      (w, some (GoError.base "deleted models cannot be empty")) ∧
    gormRepository.SaveMany ctx ([] : List T) w =
      (w, ([], some (GoError.base "inserted models cannot be empty"))) ∧
    mentionsPhrase "zero value" (GoError.base "model cannot be zero value").message = true ∧
    mentionsPhrase "empty" (GoError.base "inserted models cannot be empty").message = true ∧
    mentionsPhrase "empty" (GoError.base "deleted models cannot be empty").message = true := by
  refine ⟨?_, ?_, ?_, ?_, ?_, ?_, by decide, by decide, by decide⟩
  · simp [gormRepository.Insert, gormRepository.checkZeroValue]
  · simp [gormRepository.Update, gormRepository.checkZeroValue]
  · simp [gormRepository.Delete, gormRepository.checkZeroValue]
  · simp [gormRepository.InsertMany]
  · simp [gormRepository.DeleteMany]
  · simp [gormRepository.SaveMany]

/-- C5 witness: Insert of the zero value 0 of Nat on the empty world
  returns the zero-value validation error and leaves the world as it
  was. -/
theorem repository_zero_value_empty_validation_witness :
    gormRepository.Insert 0 none 0 emptyRepoWorld =
      (emptyRepoWorld, (0, some (GoError.base "model cannot be zero value"))) ∧
    gormRepository.InsertMany none ([] : List Nat) emptyRepoWorld =
      (emptyRepoWorld, ([], some (GoError.base "inserted models cannot be empty"))) :=
  ⟨(repository_zero_value_empty_validation Nat 0 none emptyRepoWorld).1,
    (repository_zero_value_empty_validation Nat 0 none emptyRepoWorld).2.2.2.1⟩

/-- C6. When the context lookup succeeds and the underlying query does
  not fail, a specification matching zero rows makes FindFirst return
  the zero value with a nil error; any other underlying query failure is
  returned wrapped and non-nil. -/
theorem findFirst_not_found
    (T : Type) [DecidableEq T] (zeroT : T) (specMatches : T → T → Bool)
    (isDeleted : T → Bool) (ctx : Ctx) (spec : Specification T)
    (w : RepoWorld T) (r : Option Nat) (hctx : GetGormInstance ctx = .ok r) :
    (w.queryErr = none →
      w.rows.filter (fun t => specMatches spec.Model t &&
        deletedPred spec.DeletedFilter isDeleted t) = [] →
      gormRepository.FindFirst zeroT specMatches isDeleted ctx spec w = (zeroT, none)) ∧
    (∀ e, w.queryErr = some e → e ≠ errRecordNotFound →
      gormRepository.FindFirst zeroT specMatches isDeleted ctx spec w =
        (zeroT, some (.wrap "error querying data" e))) := by
  constructor
  · intro hq hf
    simp [gormRepository.FindFirst, hctx, gormRepository.dbFirst, hq, hf]
  · intro e hq hne
    simp [gormRepository.FindFirst, hctx, gormRepository.dbFirst, hq, hne]

/-- C6 witness: with one stored row and a specification whose filter
  matches nothing, FindFirst returns the Nat zero value and a nil
  error. -/
theorem findFirst_not_found_witness :
    gormRepository.FindFirst 0 (fun a b => false) (fun t => false) none
      ⟨1, [], false, ⟨none⟩⟩ ⟨0, none, none, none, [5], none⟩ = (0, none) :=
  (findFirst_not_found Nat 0 (fun a b => false) (fun t => false) none
      ⟨1, [], false, ⟨none⟩⟩ ⟨0, none, none, none, [5], none⟩ none rfl).1
    rfl (by decide)

/-- C10. On every non-empty slice the batch operations perform no
  per-element validation: they never return the zero-value
  ValidationError of the singular operations (their only errors are the
  context lookup failure and wrapped engine failures), and whenever the
  context lookup succeeds the slice is forwarded to the database (the
  database call counter advances). -/
theorem batch_operations_skip_element_validation
    (T : Type) [DecidableEq T] (ctx : Ctx) (models : List T) (w : RepoWorld T)
    (hne : models ≠ []) :
    ((gormRepository.InsertMany ctx models w).2.2 ≠
        some (GoError.base "model cannot be zero value") ∧
      (gormRepository.DeleteMany ctx models w).2 ≠
        some (GoError.base "model cannot be zero value") ∧
      (gormRepository.SaveMany ctx models w).2.2 ≠
        some (GoError.base "model cannot be zero value")) ∧
    (∀ r, GetGormInstance ctx = .ok r →
      (gormRepository.InsertMany ctx models w).1.dbCalls = w.dbCalls + 1 ∧
      (gormRepository.DeleteMany ctx models w).1.dbCalls = w.dbCalls + 1 ∧
      (gormRepository.SaveMany ctx models w).1.dbCalls = w.dbCalls + 1) := by
  have hlen : ¬ (models.length < 1) := by
    cases models with
    | nil => exact absurd rfl hne
    | cons a as => simp
  constructor
  · refine ⟨?_, ?_, ?_⟩
    · rcases ctx with _ | v
      · cases hce : w.createErr <;>
          simp [gormRepository.InsertMany, hlen, GetGormInstance, GetTxFromContext, hce]
      · cases v with
        | txVal i =>
            cases hce : w.createErr <;>
              simp [gormRepository.InsertMany, hlen, GetGormInstance, GetTxFromContext, hce]
        | badVal =>
            simp [gormRepository.InsertMany, hlen, GetGormInstance, GetTxFromContext]
    · rcases ctx with _ | v
      · cases hce : w.deleteErr <;>
          simp [gormRepository.DeleteMany, hlen, GetGormInstance, GetTxFromContext, hce]
      · cases v with
        | txVal i =>
            cases hce : w.deleteErr <;>
              simp [gormRepository.DeleteMany, hlen, GetGormInstance, GetTxFromContext, hce]
        | badVal =>
            simp [gormRepository.DeleteMany, hlen, GetGormInstance, GetTxFromContext]
    · rcases ctx with _ | v
      · cases hce : w.saveErr <;>
          simp [gormRepository.SaveMany, hlen, GetGormInstance, GetTxFromContext, hce]
      · cases v with
        | txVal i =>
            cases hce : w.saveErr <;>
              simp [gormRepository.SaveMany, hlen, GetGormInstance, GetTxFromContext, hce]
        | badVal =>
            simp [gormRepository.SaveMany, hlen, GetGormInstance, GetTxFromContext]
  · intro r hr
    refine ⟨?_, ?_, ?_⟩
    · rcases ctx with _ | v
      · cases hce : w.createErr <;>
          simp [gormRepository.InsertMany, hlen, GetGormInstance, GetTxFromContext, hce]
      · cases v with
        | txVal i =>
            cases hce : w.createErr <;>
              simp [gormRepository.InsertMany, hlen, GetGormInstance, GetTxFromContext, hce]
        | badVal =>
            simp [GetGormInstance, GetTxFromContext] at hr
    · rcases ctx with _ | v
      · cases hce : w.deleteErr <;>
          simp [gormRepository.DeleteMany, hlen, GetGormInstance, GetTxFromContext, hce]
      · cases v with
        | txVal i =>
            cases hce : w.deleteErr <;>
              simp [gormRepository.DeleteMany, hlen, GetGormInstance, GetTxFromContext, hce]
        | badVal =>
            simp [GetGormInstance, GetTxFromContext] at hr
    · rcases ctx with _ | v
      · cases hce : w.saveErr <;>
          simp [gormRepository.SaveMany, hlen, GetGormInstance, GetTxFromContext, hce]
      · cases v with
        | txVal i =>
            cases hce : w.saveErr <;>
              simp [gormRepository.SaveMany, hlen, GetGormInstance, GetTxFromContext, hce]
        | badVal =>
            simp [GetGormInstance, GetTxFromContext] at hr

/-- C10 witness: the one-element all-zero slice over Nat passes the
  emptiness check of InsertMany (no zero-value error) and is forwarded
  to the database, advancing the call counter. -/
theorem batch_operations_skip_element_validation_witness :
    (gormRepository.InsertMany none [0] emptyRepoWorld).2.2 ≠
      some (GoError.base "model cannot be zero value") ∧
    (gormRepository.InsertMany none [0] emptyRepoWorld).1.dbCalls =
      emptyRepoWorld.dbCalls + 1 :=
  ⟨(batch_operations_skip_element_validation Nat none [0] emptyRepoWorld
      (by decide)).1.1,
    ((batch_operations_skip_element_validation Nat none [0] emptyRepoWorld
      (by decide)).2 none rfl).1⟩

/- ## Characterization of the strict validator

  An independent transcription of the claim's wording (non-empty, only
  ASCII letters, digits, underscore and dot, no leading dot, no trailing
  dot, no two consecutive dots), compared with the strict validator
  embedded from src/unnamed/part_001. -/

def specAllowedChar (c : Char) : Bool :=
  ('a' ≤ c && c ≤ 'z') ||
  ('A' ≤ c && c ≤ 'Z') ||
  ('0' ≤ c && c ≤ '9') ||
  c == '_' ||
  c == '.'

def noConsecDots : List Char → Bool
  | [] => true
  | [_] => true
  | a :: b :: r => !(a == '.' && b == '.') && noConsecDots (b :: r)

def lastNotDot (l : List Char) : Bool :=
  !(l.getLast? == some '.')

/-- The claim's acceptance condition, transcribed from its words. -/
def specFieldName (s : String) : Bool :=
  !s.data.isEmpty &&
  s.data.all specAllowedChar &&
  !(s.data.head? == some '.') &&
  lastNotDot s.data &&
  noConsecDots s.data

theorem specAllowedChar_eq_isValidChar (c : Char) :
    specAllowedChar c = Internal.isValidChar c := rfl

theorem spec_cons_not_dot (c : Char) (r : List Char) (hc : (c == '.') = false) :
    ((c :: r).all specAllowedChar && noConsecDots (c :: r) && lastNotDot (c :: r)) =
      (specAllowedChar c && (r.all specAllowedChar && noConsecDots r && lastNotDot r)) := by
  cases r with
  | nil =>
      simp [noConsecDots, lastNotDot, hc]
  | cons c2 r2 =>
      simp only [List.all_cons, noConsecDots, lastNotDot, List.getLast?_cons_cons, hc]
      cases specAllowedChar c <;>
        cases (c2 == '.') <;>
          cases (c :: c2 :: r2).all specAllowedChar <;>
            simp [Bool.and_assoc, Bool.and_comm, Bool.and_left_comm]

theorem spec_cons_dot (r : List Char) :
    (('.' :: r).all specAllowedChar && noConsecDots ('.' :: r) && lastNotDot ('.' :: r)) =
      (!(r.head? == some '.') && !r.isEmpty &&
        (r.all specAllowedChar && noConsecDots r && lastNotDot r)) := by
  cases r with
  | nil =>
      simp [noConsecDots, lastNotDot]
  | cons c2 r2 =>
      simp only [List.all_cons, noConsecDots, lastNotDot, List.getLast?_cons_cons,
        List.head?, List.isEmpty]
      cases hc2 : (c2 == '.') <;>
        cases hall : r2.all specAllowedChar <;>
          cases hsp : specAllowedChar c2 <;>
            simp [hc2, hall, hsp, Bool.and_assoc, Bool.and_comm, Bool.and_left_comm,
              specAllowedChar]

theorem validLoop_spec : ∀ l : List Char,
    (validLoop l false false =
      (l.all specAllowedChar && noConsecDots l && lastNotDot l)) ∧
    (validLoop l false true =
      (!(l.head? == some '.') && !l.isEmpty &&
        (l.all specAllowedChar && noConsecDots l && lastNotDot l))) := by
  intro l
  induction l with
  | nil => exact ⟨rfl, rfl⟩
  | cons c r ih =>
      cases hc : (c == '.') with
      | true =>
          have hceq : c = '.' := eq_of_beq hc
          subst hceq
          constructor
          · calc validLoop ('.' :: r) false false
                = validLoop r false true := by simp [validLoop]
              _ = (!(r.head? == some '.') && !r.isEmpty &&
                    (r.all specAllowedChar && noConsecDots r && lastNotDot r)) := ih.2
              _ = (('.' :: r).all specAllowedChar && noConsecDots ('.' :: r) &&
                    lastNotDot ('.' :: r)) := (spec_cons_dot r).symm
          · show validLoop ('.' :: r) false true = _
            simp [validLoop]
      | false =>
          have hv : specAllowedChar c = Internal.isValidChar c := rfl
          constructor
          · calc validLoop (c :: r) false false
                = (Internal.isValidChar c && validLoop r false false) := by
                  cases hic : Internal.isValidChar c <;> simp [validLoop, hc, hic]
              _ = (specAllowedChar c &&
                    (r.all specAllowedChar && noConsecDots r && lastNotDot r)) := by
                  rw [hv, ih.1]
              _ = ((c :: r).all specAllowedChar && noConsecDots (c :: r) &&
                    lastNotDot (c :: r)) := (spec_cons_not_dot c r hc).symm
          · calc validLoop (c :: r) false true
                = (Internal.isValidChar c && validLoop r false false) := by
                  cases hic : Internal.isValidChar c <;> simp [validLoop, hc, hic]
              _ = (specAllowedChar c &&
                    (r.all specAllowedChar && noConsecDots r && lastNotDot r)) := by
                  rw [hv, ih.1]
              _ = ((c :: r).all specAllowedChar && noConsecDots (c :: r) &&
                    lastNotDot (c :: r)) := (spec_cons_not_dot c r hc).symm
              _ = (!((c :: r).head? == some '.') && !(c :: r).isEmpty &&
                    ((c :: r).all specAllowedChar && noConsecDots (c :: r) &&
                      lastNotDot (c :: r))) := by
                  simp [hc]

/-- The strict validator of src/unnamed/part_001 accepts exactly the
  strings described by the claim: non-empty, drawn from the allow-list,
  with no leading dot, no trailing dot, and no two consecutive dots. -/
theorem strict_validator_matches_spec (s : String) :
    IsValidFieldNameStrict s = specFieldName s := by
  have hlen : s.length = s.data.length := rfl
  cases hl : s.data with
  | nil =>
      simp [IsValidFieldNameStrict, specFieldName, hlen, hl]
  | cons c r =>
      have hne : (s.length == 0) = false := by
        simp [hlen, hl]
      cases hc : (c == '.') with
      | true =>
          have hceq : c = '.' := eq_of_beq hc
          subst hceq
          simp [IsValidFieldNameStrict, specFieldName, hne, hl, validLoop]
      | false =>
          have h1 : validLoop (c :: r) false false =
              ((c :: r).all specAllowedChar && noConsecDots (c :: r) &&
                lastNotDot (c :: r)) :=
            (validLoop_spec (c :: r)).1
          have h2 : validLoop (c :: r) true false = validLoop (c :: r) false false := by
            cases hic : Internal.isValidChar c <;> simp [validLoop, hc, hic]
          rw [IsValidFieldNameStrict, specFieldName, hne, hl, if_neg Bool.false_ne_true,
            h2, h1]
          cases ha : (c :: r).all specAllowedChar <;>
            cases hn : noConsecDots (c :: r) <;>
              cases hd : lastNotDot (c :: r) <;>
                simp [hc, ha, hn, hd]

/-- The validator of src/internal/gorm.go accepts exactly the non-empty
  allow-listed strings, with no dot-placement restriction at all: the
  gap to the claim's condition is precisely the three dot rules. -/
theorem lax_validator_ignores_dot_rules (s : String) :
    IsValidFieldName s = (!s.data.isEmpty && s.data.all specAllowedChar) := by
  have hlen : s.length = s.data.length := rfl
  cases hl : s.data with
  | nil => simp [IsValidFieldName, hlen, hl]
  | cons c r =>
      have hne : (s.length == 0) = false := by
        simp [hlen, hl]
      rw [IsValidFieldName, hne, if_neg Bool.false_ne_true, hl]
      rfl
